import Mathlib

/-!
Verification development for the HOG feature / strided-convolution core of
`PartsBasedDetectorMod` (`src/HOGFeatures.cpp`).

The embedding models:
* `cv::Mat` buffers as dimension-carrying entry functions (`Mat`),
* the strided convolution `HOGFeatures<T>::convolve` (pointer loop included),
* the pyramid-level padding call and scale bookkeeping of
  `HOGFeatures<T>::pyramid`,
* the element-type dispatch of `pyramid`,
* the feature extractor `HOGFeatures<T>::features` over the reals
  (gradients, orientation snapping, bilinear histogram writes, block
  energies, normalization and feature assembly).

Machine floating point is modelled by exact rational/real arithmetic; the
claims under study are about the algebraic structure of the code, not about
rounding.
-/

namespace Hog

/-! ## Matrices (`cv::Mat` with scalar entries, row-major) -/

/-- A 2-D matrix of rationals: dimensions plus an entry function.
Row-major flattened access mirrors the raw pointer arithmetic of the C++. -/
structure Mat where
  rows : ℕ
  cols : ℕ
  entry : ℕ → ℕ → ℚ

/-- Row-major flat (pointer-style) access: offset `k` is entry `(k / cols, k % cols)`. -/
def Mat.flat (A : Mat) (k : ℕ) : ℚ := A.entry (k / A.cols) (k % A.cols)

/-- The all-ones `r × c` matrix (used as concrete test data). -/
def onesMat (r c : ℕ) : Mat := ⟨r, c, fun _ _ => 1⟩

/-! ## `HOGFeatures<T>::convolve` (src lines 292-324)

The C++ inner loop is, for each output position `(m, n)`:

    accum = 0; filt_ptr = filt_start; feat_ptr = feature.ptr(m) + n;
    for (h = 0; h < H; ++h) {
      while (filt_ptr < filt_start + h*W) accum += *filt_ptr++ * *feat_ptr++;
      feat_ptr = feature.ptr(m+h) + n;
    }

We model the loop state as `(filter offset, feature offset, accumulator)`:
each `h` iteration runs the while-loop until the filter offset reaches
`h*W` (a block of `h*W - offset` lock-step reads), then resets the feature
pointer to row `m+h`, column `n`. -/

/-- One iteration of the `for (h = 0; h < H; ++h)` loop of `convolve`. -/
def convStep (feat filt : Mat) (m n : ℕ) (s : ℕ × ℕ × ℚ) (h : ℕ) : ℕ × ℕ × ℚ :=
  let fo := s.1
  let fp := s.2.1
  let acc := s.2.2
  let cnt := h * filt.cols - fo
  (fo + cnt,
   ((m + h) * feat.cols + n,
    acc + ∑ j ∈ Finset.range cnt, filt.flat (fo + j) * feat.flat (fp + j)))

/-- The response value `convolve` computes at output position `(m, n)`
(`n` is a raw column offset into the flattened feature buffer). -/
def convolveAt (feat filt : Mat) (m n : ℕ) : ℚ :=
  ((List.range filt.rows).foldl (convStep feat filt m n) (0, m * feat.cols + n, 0)).2.2

/-- `M = feature.rows - filter.rows + 1` of `convolve` (C++ `int`, may be ≤ 0). -/
def convM (feat filt : Mat) : ℤ := (feat.rows : ℤ) - filt.rows + 1

/-- `N = feature.cols - filter.cols + stride` of `convolve`. -/
def convN (feat filt : Mat) (stride : ℕ) : ℤ := (feat.cols : ℤ) - filt.cols + stride

/-- The sequence of values written through `pdf_ptr` by `convolve`, in write
order: `m = 0..M-1` outer, `n = 0, stride, 2*stride, ... < N` inner.
For `stride > 0` the inner loop runs `⌈N/stride⌉` times. -/
def convolveVals (feat filt : Mat) (stride : ℕ) : List ℚ :=
  (List.range (convM feat filt).toNat).flatMap fun m =>
    (List.range (((convN feat filt stride).toNat + stride - 1) / stride)).map fun i =>
      convolveAt feat filt m (i * stride)

/-- The `(rows, cols)` of the matrix allocated by `pdf.create(Size(M, N), ...)`:
`cv::Size(width, height)` makes `M` the width (column count) and `N` the
height (row count). -/
def convolvePdfShape (feat filt : Mat) (stride : ℕ) : ℕ × ℕ :=
  ((convN feat filt stride).toNat, (convM feat filt).toNat)

/-- Error class of the `assert` at the top of `convolve`. -/
inductive ConvError where
  | preconditionViolation
deriving DecidableEq

/-- `convolve` with its precondition check
`assert(feature.cols % stride == 0 && filter.cols % stride == 0)`
(the depth-equality assert is enforced by the embedding's single scalar
type). On success it returns the allocated shape and the written values. -/
def convolveChecked (feat filt : Mat) (stride : ℕ) :
    Except ConvError ((ℕ × ℕ) × List ℚ) :=
  if feat.cols % stride = 0 ∧ filt.cols % stride = 0 then
    .ok (convolvePdfShape feat filt stride, convolveVals feat filt stride)
  else
    .error .preconditionViolation

/-- Modelled from the spec: the full inner product of all
`filter.rows × filter.cols` filter weights against the co-located window of
the feature map (the response value the claim asserts `convolve` computes). -/
def specFullInnerProduct (feat filt : Mat) (m n : ℕ) : ℚ :=
  ∑ h ∈ Finset.range filt.rows, ∑ j ∈ Finset.range filt.cols,
    filt.entry h j * feat.entry (m + h) (n + j)

/-! ## Pyramid-level padding (src line 111) and scales (src lines 73-74) -/

/-- Constant-value border padding: the semantics of the external
`copyMakeBorder(src, dst, top, bottom, left, right, BORDER_CONSTANT, value)`
(Border Padder of the spec, §6). -/
def padBorder (A : Mat) (top bottom left right : ℕ) (val : ℚ) : Mat :=
  ⟨A.rows + top + bottom, A.cols + left + right,
   fun i j =>
     if top ≤ i ∧ i < top + A.rows ∧ left ≤ j ∧ j < left + A.cols then
       A.entry (i - top) (j - left)
     else val⟩

/-- The padding applied to each raw feature grid by `pyramid`:
`copyMakeBorder(feature, padded, 1, 1, flen_, flen_, BORDER_CONSTANT, 1)` —
1 row top and bottom, `flen` columns left and right, fill value `1`. -/
def pyramidPad (flen : ℕ) (feature : Mat) : Mat :=
  padBorder feature 1 1 flen flen 1

/-- The per-level scales recorded by `pyramid`: `scales_.clear()` followed by
`scales_.resize(nscales_)` value-initializes `nscales` entries to `0.0`, and
no element of `scales_` is ever assigned afterwards in the translation unit. -/
def pyramidScales (nscales : ℕ) : List ℚ := List.replicate nscales 0

/-! ## Element-type dispatch of `pyramid` (src lines 104-110) -/

/-- The OpenCV element depths a `cv::Mat` can carry. -/
inductive CvDepth where
  | u8 | s8 | u16 | s16 | s32 | f32 | f64
deriving DecidableEq

/-- Error raised by `CV_Error(CV_StsUnsupportedFormat, ...)`. -/
inductive HogError where
  | unsupportedFormat
deriving DecidableEq

/-- The `switch (im.depth())` in the per-level loop of `pyramid`:
`CV_32F`, `CV_64F`, `CV_8U`, `CV_16U` dispatch to `features`; every other
depth hits `default: CV_Error(CV_StsUnsupportedFormat, ...)`. -/
def featuresDispatch (d : CvDepth) : Except HogError Unit :=
  match d with
  | .f32 => .ok ()
  | .f64 => .ok ()
  | .u8 => .ok ()
  | .u16 => .ok ()
  | _ => .error .unsupportedFormat

/-- The `for (n = 0; n < nscales_; ++n)` feature-computation loop of
`pyramid`: each level runs the depth dispatch; `CV_Error` throws, aborting
the loop. -/
def pyramidLevels (d : CvDepth) : ℕ → Except HogError Unit
  | 0 => .ok ()
  | n + 1 => do
    featuresDispatch d
    pyramidLevels d n

/-! ## `HOGFeatures<T>::features` (src lines 130-274)

The image is a planar buffer of real samples, addressed exactly as the C++
pointer arithmetic does (`src + min(x, cols-2) + min(y, rows-2)*cols`, with
channel planes at offsets `c*cols*rows`). `binsize` is the `binsize_`
member; `norient_ = 18` and `flen_ = 32` as fixed by the spec. -/

/-- An input image: dimensions, channel count and a flat planar sample
buffer (total on `ℤ` so that out-of-range pointer reads are expressible). -/
structure Img where
  rows : ℕ
  cols : ℕ
  channels : ℕ
  buf : ℤ → ℝ

/-- `round((float)a / (float)b)` for the nonnegative ints of the code:
round-half-up, i.e. `⌊a/b + 1/2⌋ = (2a + b) / (2b)`. -/
def roundDiv (a b : ℕ) : ℕ := (2 * a + b) / (2 * b)

/-- `blocks.height = round(imsize.height / binsize)`. -/
def blocksH (im : Img) (b : ℕ) : ℕ := roundDiv im.rows b

/-- `blocks.width = round(imsize.width / binsize)`. -/
def blocksW (im : Img) (b : ℕ) : ℕ := roundDiv im.cols b

/-- `outsize.height = max(blocks.height - 2, 0)` (ℕ-subtraction clamps). -/
def outH (im : Img) (b : ℕ) : ℕ := blocksH im b - 2

/-- `outsize.width = max(blocks.width - 2, 0)`. -/
def outW (im : Img) (b : ℕ) : ℕ := blocksW im b - 2

/-- `visible.height = blocks.height * binsize`. -/
def visibleH (im : Img) (b : ℕ) : ℕ := blocksH im b * b

/-- `visible.width = blocks.width * binsize`. -/
def visibleW (im : Img) (b : ℕ) : ℕ := blocksW im b * b

/-- The clamped base offset of the gradient reads at pixel `(x, y)`:
`s = src + min(x, im.cols-2) + min(y, im.rows-2)*imsize.width`. -/
def gradBase (im : Img) (x y : ℕ) : ℤ :=
  min (x : ℤ) ((im.cols : ℤ) - 2) + min (y : ℤ) ((im.rows : ℤ) - 2) * im.cols

/-- The flat addresses the gradient pass reads for pixel `(x, y)`: the four
centered-difference taps `s±1`, `s±width` on each channel plane (plane `c`
lives at offset `c*width*height`; three planes iff the image is color). -/
def gradReads (im : Img) (x y : ℕ) : List ℤ :=
  (if im.channels = 3 then [0, 1, 2] else [0]).flatMap fun c =>
    let s := gradBase im x y + (c : ℤ) * ((im.cols : ℤ) * im.rows)
    [s + 1, s - 1, s + im.cols, s - im.cols]

/-- Channel-`c` horizontal centered difference `dx = *(s+1) - *(s-1)`. -/
def chanDx (im : Img) (x y c : ℕ) : ℝ :=
  let s := gradBase im x y + (c : ℤ) * ((im.cols : ℤ) * im.rows)
  im.buf (s + 1) - im.buf (s - 1)

/-- Channel-`c` vertical centered difference `dy = *(s+width) - *(s-width)`. -/
def chanDy (im : Img) (x y c : ℕ) : ℝ :=
  let s := gradBase im x y + (c : ℤ) * ((im.cols : ℤ) * im.rows)
  im.buf (s + im.cols) - im.buf (s - im.cols)

/-- Channel-`c` squared gradient magnitude `v = dx*dx + dy*dy`. -/
def chanV (im : Img) (x y c : ℕ) : ℝ :=
  chanDx im x y c * chanDx im x y c + chanDy im x y c * chanDy im x y c

/-- The squared magnitude after channel selection: for color images the
channel comparisons `if (vg > v) ... if (vr > v) ...` pick the strongest. -/
noncomputable def gradV (im : Img) (x y : ℕ) : ℝ :=
  let v0 := chanV im x y 0
  if im.channels = 3 then
    let v1 := if chanV im x y 1 > v0 then chanV im x y 1 else v0
    if chanV im x y 2 > v1 then chanV im x y 2 else v1
  else v0

/-- `dx` after channel selection (follows the same comparison chain). -/
noncomputable def gradDx (im : Img) (x y : ℕ) : ℝ :=
  let v0 := chanV im x y 0
  if im.channels = 3 then
    let v1 := if chanV im x y 1 > v0 then chanV im x y 1 else v0
    let d1 := if chanV im x y 1 > v0 then chanDx im x y 1 else chanDx im x y 0
    if chanV im x y 2 > v1 then chanDx im x y 2 else d1
  else chanDx im x y 0

/-- `dy` after channel selection. -/
noncomputable def gradDy (im : Img) (x y : ℕ) : ℝ :=
  let v0 := chanV im x y 0
  if im.channels = 3 then
    let v1 := if chanV im x y 1 > v0 then chanV im x y 1 else v0
    let d1 := if chanV im x y 1 > v0 then chanDy im x y 1 else chanDy im x y 0
    if chanV im x y 2 > v1 then chanDy im x y 2 else d1
  else chanDy im x y 0

/-- The unit-vector tables `uu` of the orientation snap. -/
def uu : ℕ → ℝ
  | 0 => 1
  | 1 => 0.9397
  | 2 => 0.7660
  | 3 => 0.5
  | 4 => 0.1736
  | 5 => -0.1736
  | 6 => -0.5
  | 7 => -0.7660
  | 8 => -0.9397
  | _ => 0

/-- The unit-vector tables `vv` of the orientation snap. -/
def vv : ℕ → ℝ
  | 0 => 0
  | 1 => 0.3420
  | 2 => 0.6428
  | 3 => 0.8660
  | 4 => 0.9848
  | 5 => 0.9848
  | 6 => 0.8660
  | 7 => 0.6428
  | 8 => 0.3420
  | _ => 0

/-- One iteration of the orientation-snapping loop: state `(best_dot, best_o)`,
`if (dot > best_dot) {...} else if (-dot > best_dot) {... o+9}`. -/
noncomputable def snapStep (dx dy : ℝ) (p : ℝ × ℕ) (o : ℕ) : ℝ × ℕ :=
  let dot := uu o * dx + vv o * dy
  if dot > p.1 then (dot, o) else if -dot > p.1 then (-dot, o + 9) else p

/-- The orientation bin `best_o` snapped from `(dx, dy)`: loop
`o = 0..8` starting from `(best_dot, best_o) = (0, 0)`. -/
noncomputable def snap (dx dy : ℝ) : ℕ :=
  ((List.range 9).foldl (snapStep dx dy) (0, 0)).2

/-- Pointer-style write into the flat histogram buffer: the C++ statements
`*(hist + idx) = val` **assign** (they do not accumulate). -/
def hwrite (h : ℤ → ℝ) (k : ℤ) (v : ℝ) : ℤ → ℝ :=
  fun i => if i = k then v else h i

/-- The body of the per-pixel histogram loop (src lines 161-212) for pixel
`(y, x)`: gradient, orientation snap, bilinear weights from the fractional
cell coordinate, `v = sqrt(v)`, then the four guarded writes in source
order. -/
noncomputable def pixelUpdate (im : Img) (b : ℕ) (h : ℤ → ℝ) (yx : ℕ × ℕ) : ℤ → ℝ :=
  let y := yx.1
  let x := yx.2
  let bw : ℤ := blocksW im b
  let bh : ℤ := blocksH im b
  let yp : ℝ := ((y : ℝ) + 0.5) / (b : ℝ) - 0.5
  let xp : ℝ := ((x : ℝ) + 0.5) / (b : ℝ) - 0.5
  let iyp : ℤ := ⌊yp⌋
  let ixp : ℤ := ⌊xp⌋
  let vy0 : ℝ := yp - (iyp : ℝ)
  let vx0 : ℝ := xp - (ixp : ℝ)
  let vy1 : ℝ := 1 - vy0
  let vx1 : ℝ := 1 - vx0
  let v : ℝ := Real.sqrt (gradV im x y)
  let o : ℤ := snap (gradDx im x y) (gradDy im x y)
  let h1 := if 0 ≤ iyp ∧ 0 ≤ ixp then
    hwrite h ((iyp * bw + ixp) * 18 + o) (vy1 * vx1 * v) else h
  let h2 := if 0 ≤ iyp ∧ ixp + 1 < bw then
    hwrite h1 ((iyp * bw + ixp + 1) * 18 + o) (vx1 * vy0 * v) else h1
  let h3 := if iyp + 1 < bh ∧ 0 ≤ ixp then
    hwrite h2 (((iyp + 1) * bw + ixp) * 18 + o) (vy1 * vx0 * v) else h2
  if iyp + 1 < bh ∧ ixp + 1 < bw then
    hwrite h3 (((iyp + 1) * bw + ixp + 1) * 18 + o) (vy0 * vx0 * v) else h3

/-- The pixels visited by the gradient pass, in C++ loop order:
`y = 1 .. visible.height-2` outer, `x = 1 .. visible.width-2` inner. -/
def pixelList (h w : ℕ) : List (ℕ × ℕ) :=
  (List.range (h - 2)).flatMap fun y =>
    (List.range (w - 2)).map fun x => (y + 1, x + 1)

/-- The histogram buffer after the whole pixel loop (initially
`Mat::zeros`). -/
noncomputable def histPass (im : Img) (b : ℕ) : ℤ → ℝ :=
  (pixelList (visibleH im b) (visibleW im b)).foldl (pixelUpdate im b) (fun _ => 0)

/-- Modelled from the spec: the accumulating (`+=`) variant of the histogram
write which the claim's "accumulated (added)" wording describes; used only
to compare against the code's assigning writes. -/
def haccum (h : ℤ → ℝ) (k : ℤ) (v : ℝ) : ℤ → ℝ :=
  fun i => if i = k then h k + v else h i

/-- Modelled from the spec: `pixelUpdate` with accumulating writes. -/
noncomputable def specPixelAccum (im : Img) (b : ℕ) (h : ℤ → ℝ) (yx : ℕ × ℕ) : ℤ → ℝ :=
  let y := yx.1
  let x := yx.2
  let bw : ℤ := blocksW im b
  let bh : ℤ := blocksH im b
  let yp : ℝ := ((y : ℝ) + 0.5) / (b : ℝ) - 0.5
  let xp : ℝ := ((x : ℝ) + 0.5) / (b : ℝ) - 0.5
  let iyp : ℤ := ⌊yp⌋
  let ixp : ℤ := ⌊xp⌋
  let vy0 : ℝ := yp - (iyp : ℝ)
  let vx0 : ℝ := xp - (ixp : ℝ)
  let vy1 : ℝ := 1 - vy0
  let vx1 : ℝ := 1 - vx0
  let v : ℝ := Real.sqrt (gradV im x y)
  let o : ℤ := snap (gradDx im x y) (gradDy im x y)
  let h1 := if 0 ≤ iyp ∧ 0 ≤ ixp then
    haccum h ((iyp * bw + ixp) * 18 + o) (vy1 * vx1 * v) else h
  let h2 := if 0 ≤ iyp ∧ ixp + 1 < bw then
    haccum h1 ((iyp * bw + ixp + 1) * 18 + o) (vx1 * vy0 * v) else h1
  let h3 := if iyp + 1 < bh ∧ 0 ≤ ixp then
    haccum h2 (((iyp + 1) * bw + ixp) * 18 + o) (vy1 * vx0 * v) else h2
  if iyp + 1 < bh ∧ ixp + 1 < bw then
    haccum h3 (((iyp + 1) * bw + ixp + 1) * 18 + o) (vy0 * vx0 * v) else h3

/-- Modelled from the spec: histogram built with accumulating writes. -/
noncomputable def specHistAccum (im : Img) (b : ℕ) : ℤ → ℝ :=
  (pixelList (visibleH im b) (visibleW im b)).foldl (specPixelAccum im b) (fun _ => 0)

/-- The block-energy array (src lines 216-218): for block `i`,
`norm[i] = Σ_{o<9} (hist[i*18+o] + hist[i*18+9+o])²`. -/
noncomputable def blockEnergy (im : Img) (b : ℕ) (i : ℤ) : ℝ :=
  ∑ o ∈ Finset.range 9,
    (histPass im b (i * 18 + o) + histPass im b (i * 18 + 9 + o)) ^ 2

/-- A normalization scalar of the feature loop (src lines 226-233):
`1 / sqrt(*p + *(p+1) + *(p+outsize.width) + *(p+outsize.width+1) + eps)`
for a base offset `p` into `norm`; note the code uses `outsize.width` as
the row stride. `eps = 0.0001`. -/
noncomputable def featN (im : Img) (b : ℕ) (base : ℤ) : ℝ :=
  1 / Real.sqrt (blockEnergy im b base + blockEnergy im b (base + 1) +
    blockEnergy im b (base + outW im b) + blockEnergy im b (base + outW im b + 1) +
    1 / 10000)

/-- `n1` for output cell `(y, x)`: base `(y+1)*outsize.width + (x+1)`. -/
noncomputable def featN1 (im : Img) (b y x : ℕ) : ℝ :=
  featN im b (((y : ℤ) + 1) * outW im b + ((x : ℤ) + 1))

/-- `n2`: base `y*outsize.width + (x+1)`. -/
noncomputable def featN2 (im : Img) (b y x : ℕ) : ℝ :=
  featN im b ((y : ℤ) * outW im b + ((x : ℤ) + 1))

/-- `n3`: base `(y+1)*outsize.width + x`. -/
noncomputable def featN3 (im : Img) (b y x : ℕ) : ℝ :=
  featN im b (((y : ℤ) + 1) * outW im b + (x : ℤ))

/-- `n4`: base `y*outsize.width + x`. -/
noncomputable def featN4 (im : Img) (b y x : ℕ) : ℝ :=
  featN im b ((y : ℤ) * outW im b + (x : ℤ))

/-- Modelled from the spec: a normalization scalar whose 2×2 neighborhood is
read from the block-energy grid with row stride `blocks.width` (the number
of blocks per row), as the claim states. -/
noncomputable def specFeatN (im : Img) (b : ℕ) (base : ℤ) : ℝ :=
  1 / Real.sqrt (blockEnergy im b base + blockEnergy im b (base + 1) +
    blockEnergy im b (base + blocksW im b) + blockEnergy im b (base + blocksW im b + 1) +
    1 / 10000)

/-- Modelled from the spec: the `n4` scalar for output cell `(y, x)` — the
2×2 block-energy window anchored at block `(y, x)`, stride `blocks.width`. -/
noncomputable def specFeatN4 (im : Img) (b y x : ℕ) : ℝ :=
  specFeatN im b ((y : ℤ) * blocksW im b + (x : ℤ))

/-- The histogram vector of the block feeding output cell `(y, x)`:
`src = hist + ((y+1)*blocks.width + (x+1))*18`, entry `j`. -/
noncomputable def cellHist (im : Img) (b y x : ℕ) (j : ℕ) : ℝ :=
  histPass im b ((((y : ℤ) + 1) * blocksW im b + ((x : ℤ) + 1)) * 18 + j)

/-- `min(a, 0.2)`: the normalization truncation of the feature loop. -/
noncomputable def clamp02 (a : ℝ) : ℝ := min a 0.2

/-- A contrast-sensitive feature value (src lines 238-250):
`0.5 * (h1 + h2 + h3 + h4)` with `hK = min(hist * nK, 0.2)`. -/
noncomputable def featSens (im : Img) (b y x o : ℕ) : ℝ :=
  0.5 * (clamp02 (cellHist im b y x o * featN1 im b y x) +
    clamp02 (cellHist im b y x o * featN2 im b y x) +
    clamp02 (cellHist im b y x o * featN3 im b y x) +
    clamp02 (cellHist im b y x o * featN4 im b y x))

/-- A contrast-insensitive feature value (src lines 253-262): the paired-bin
sum `hist[o] + hist[o+9]`, normalized, truncated and averaged identically. -/
noncomputable def featInsens (im : Img) (b y x o : ℕ) : ℝ :=
  let s := cellHist im b y x o + cellHist im b y x (o + 9)
  0.5 * (clamp02 (s * featN1 im b y x) + clamp02 (s * featN2 im b y x) +
    clamp02 (s * featN3 im b y x) + clamp02 (s * featN4 im b y x))

/-- A texture accumulator `tK` (src lines 246-249): the running sum of the
truncated normalized values over all 18 contrast-sensitive bins. -/
noncomputable def featT (im : Img) (b y x : ℕ) (n : ℝ) : ℝ :=
  ∑ o ∈ Finset.range 18, clamp02 (cellHist im b y x o * n)

/-- Slot `k` (0 ≤ k < 32) of the feature vector of output cell `(y, x)`:
18 contrast-sensitive values, 9 contrast-insensitive values, 4 texture
values `0.2357 * tK`, and the always-zero truncation slot. -/
noncomputable def featVal (im : Img) (b y x k : ℕ) : ℝ :=
  if k < 18 then featSens im b y x k
  else if k < 27 then featInsens im b y x (k - 18)
  else if k = 27 then 0.2357 * featT im b y x (featN1 im b y x)
  else if k = 28 then 0.2357 * featT im b y x (featN2 im b y x)
  else if k = 29 then 0.2357 * featT im b y x (featN3 im b y x)
  else if k = 30 then 0.2357 * featT im b y x (featN4 im b y x)
  else 0

/-! ## Concrete test data -/

/-- A 1×1 rational matrix with entry 5 (padding counterexample data). -/
def cMat : Mat := ⟨1, 1, fun _ _ => 5⟩

/-! ## Theorems -/

/-- C1: the claim says every response value of `convolve` is the full inner
product of all `filterRows × filterCols` filter weights against the
co-located feature window. The code's while-loop bound `filt_ptr <
filt_start + h*W` never lets the last filter row contribute: for the
all-ones 1×32 feature and 1×32 filter (stride 32, both column counts exact
multiples of the stride) the response at (0,0) is 0, while the full inner
product is 32. -/
theorem convolve_drops_last_filter_row :
    convolveAt (onesMat 1 32) (onesMat 1 32) 0 0 = 0 ∧
    specFullInnerProduct (onesMat 1 32) (onesMat 1 32) 0 0 = 32 ∧
    (0 : ℚ) ≠ 32 := by
  refine ⟨?_, ?_, by norm_num⟩
  · norm_num [convolveAt, convStep, onesMat, List.range_succ]
  · simp [specFullInnerProduct, onesMat]

/-- C5: the claim says the response map has `(M−H+1)` rows and `(N−W+1)`
columns. `pdf.create(Size(M, N), ...)` makes `M = featureRows−filterRows+1`
the *width* and `N = featureCols−filterCols+stride` (not divided by the
stride) the *height*: for a 3×64 feature and 2×32 filter at stride 32 the
allocated matrix is 64×2, the claim says 2×2; only
`(M−H+1)·(N−W+1) = 4` response values are ever written. -/
theorem convolve_pdf_shape_transposed :
    convolvePdfShape (onesMat 3 64) (onesMat 2 32) 32 = (64, 2) ∧
    (convolveVals (onesMat 3 64) (onesMat 2 32) 32).length = 4 ∧
    ((64, 2) : ℕ × ℕ) ≠ (2, 2) := by
  refine ⟨by decide, ?_, by decide⟩
  decide

/-- C8: `convolve` raises its assertion-class error exactly when the feature
map's or the filter's column count is not an exact multiple of `stride`. -/
theorem convolve_precondition (feat filt : Mat) (stride : ℕ) (_hs : 0 < stride) :
    convolveChecked feat filt stride = .error .preconditionViolation ↔
      ¬ (feat.cols % stride = 0 ∧ filt.cols % stride = 0) := by
  unfold convolveChecked
  split
  · rename_i h
    simp [h]
  · rename_i h
    simp [h]

/-- Witness for C8 at a concrete misaligned input: a 1×33 filter against a
1×32 feature at stride 32 raises the precondition error. -/
theorem convolve_precondition_witness :
    convolveChecked (onesMat 1 32) (onesMat 1 33) 32 = .error .preconditionViolation :=
  (convolve_precondition (onesMat 1 32) (onesMat 1 33) 32 (by decide)).mpr (by decide)

/-- C3 counterexample: the claim says each pyramid level is the raw feature
grid padded with fill value 0. The code calls
`copyMakeBorder(feature, padded, 1, 1, flen_, flen_, BORDER_CONSTANT, 1)`,
so for the 1×1 grid `cMat` and `flen = 2` the top-left border entry of the
stored level is 1, whereas the spec's 0-filled padding puts 0 there. -/
theorem pyramid_pad_fill_is_one :
    (pyramidPad 2 cMat).entry 0 0 = 1 ∧
    (padBorder cMat 1 1 2 2 0).entry 0 0 = 0 ∧
    (1 : ℚ) ≠ 0 := by
  refine ⟨by decide, by decide, by decide⟩

/-- C3 amended: each pyramid level equals the raw extractor output padded
with a border of 1 row top and bottom and `flen` columns left and right of
constant fill value **1**; the interior of the padded map equals the
unpadded output exactly. -/
theorem pyramid_pad_roundtrip (flen : ℕ) (A : Mat) (i j : ℕ) :
    (pyramidPad flen A).rows = A.rows + 2 ∧
    (pyramidPad flen A).cols = A.cols + 2 * flen ∧
    (i < A.rows → j < A.cols →
      (pyramidPad flen A).entry (i + 1) (j + flen) = A.entry i j) ∧
    (¬ (1 ≤ i ∧ i < 1 + A.rows ∧ flen ≤ j ∧ j < flen + A.cols) →
      (pyramidPad flen A).entry i j = 1) := by
  refine ⟨by simp [pyramidPad, padBorder], by simp [pyramidPad, padBorder]; ring, ?_, ?_⟩
  · intro hi hj
    have hcond : 1 ≤ i + 1 ∧ i + 1 < 1 + A.rows ∧ flen ≤ j + flen ∧ j + flen < flen + A.cols := by
      omega
    simp only [pyramidPad, padBorder, if_pos hcond, Nat.add_sub_cancel]
  · intro hcond
    simp only [pyramidPad, padBorder, if_neg hcond]

/-- Witness for C3 amended at the concrete 1×1 grid and `flen = 2`. -/
theorem pyramid_pad_roundtrip_witness :
    (pyramidPad 2 cMat).entry 1 2 = cMat.entry 0 0 :=
  (pyramid_pad_roundtrip 2 cMat 0 0).2.2.1 (by decide) (by decide)

/-- C7: the claim says the recorded scales are strictly decreasing with
`scales[0] = 1.0`. `pyramid` resizes `scales_` (default-filling with `0.0`)
and never assigns any element: with one level the recorded list is `[0]`
(so `scales[0] ≠ 1`), and with two levels `[0, 0]` is not strictly
decreasing. -/
theorem pyramid_scales_never_written :
    pyramidScales 1 = [(0 : ℚ)] ∧ ((0 : ℚ) ≠ 1) ∧
    pyramidScales 2 = [(0 : ℚ), 0] ∧ ¬ (pyramidScales 2).Chain' (· > ·) := by
  refine ⟨by decide, by decide, by decide, ?_⟩
  norm_num [pyramidScales, List.replicate_succ, List.chain'_cons]

/-- Helper: a supported depth makes every level of the pyramid loop succeed. -/
theorem pyramidLevels_ok (d : CvDepth) (hd : featuresDispatch d = .ok ()) :
    ∀ n, pyramidLevels d n = .ok ()
  | 0 => rfl
  | n + 1 => by
    simp [pyramidLevels, hd, Bind.bind, Except.bind, pyramidLevels_ok d hd n]

/-- C9: when at least one pyramid level is computed, the feature-extraction
loop of `pyramid` raises `UnsupportedFormat` exactly for source depths
outside `{CV_8U, CV_16U, CV_32F, CV_64F}`. -/
theorem pyramid_unsupported_format (d : CvDepth) (n : ℕ) (hn : 1 ≤ n) :
    pyramidLevels d n = .error .unsupportedFormat ↔
      ¬ (d = .u8 ∨ d = .u16 ∨ d = .f32 ∨ d = .f64) := by
  obtain ⟨m, rfl⟩ : ∃ m, n = m + 1 := ⟨n - 1, by omega⟩
  cases d <;>
    simp [pyramidLevels, featuresDispatch, pyramidLevels_ok, Bind.bind, Except.bind]

/-- Witness for C9: one level at depth `CV_32S` raises `UnsupportedFormat`. -/
theorem pyramid_unsupported_format_witness :
    pyramidLevels CvDepth.s32 1 = .error .unsupportedFormat :=
  (pyramid_unsupported_format CvDepth.s32 1 (by decide)).mpr (by decide)

/-! ## C10: gradient-read address bounds -/

/-- A 2×2 grayscale image (all samples 0). -/
def imgTiny : Img := ⟨2, 2, 1, fun _ => 0⟩

/-- A 3×3 grayscale image: sample 4 at pixel (row 1, col 2), 0 elsewhere. -/
def img3 : Img := ⟨3, 3, 1, fun i => if i = 5 then 4 else 0⟩

/-- C10 counterexample: with a 2×2 image and `binsize = 3` the gradient pass
visits pixel `(1, 1)` (`visible = 3×3`), the clamped base offset is
`min(1, 0) + min(1, 0)*2 = 0`, and the left tap `s - 1` reads flat address
`-1`, outside the image buffer. -/
theorem grad_read_out_of_bounds :
    1 < visibleH imgTiny 3 - 1 ∧ 1 < visibleW imgTiny 3 - 1 ∧
    (-1 : ℤ) ∈ gradReads imgTiny 1 1 ∧ ¬ (0 ≤ (-1 : ℤ)) := by
  decide

/-- Helper: within one channel plane, every centered-difference tap from the
clamped base is a valid in-plane offset, provided the image is at least
3×3. -/
theorem plane_read_bounds (im : Img) (x y : ℕ) (δ : ℤ)
    (hr : 3 ≤ im.rows) (hc : 3 ≤ im.cols) (hx : 1 ≤ x) (hy : 1 ≤ y)
    (hδ : δ = 1 ∨ δ = -1 ∨ δ = (im.cols : ℤ) ∨ δ = -(im.cols : ℤ)) :
    0 ≤ gradBase im x y + δ ∧ gradBase im x y + δ < (im.rows : ℤ) * im.cols := by
  have hcx1 : (1 : ℤ) ≤ min (x : ℤ) ((im.cols : ℤ) - 2) := by
    apply le_min <;> [exact_mod_cast hx; omega]
  have hcx2 : min (x : ℤ) ((im.cols : ℤ) - 2) ≤ (im.cols : ℤ) - 2 := min_le_right _ _
  have hcy1 : (1 : ℤ) ≤ min (y : ℤ) ((im.rows : ℤ) - 2) := by
    apply le_min <;> [exact_mod_cast hy; omega]
  have hcy2 : min (y : ℤ) ((im.rows : ℤ) - 2) ≤ (im.rows : ℤ) - 2 := min_le_right _ _
  have hr' : (3 : ℤ) ≤ im.rows := by exact_mod_cast hr
  have hc' : (3 : ℤ) ≤ im.cols := by exact_mod_cast hc
  unfold gradBase
  rcases hδ with rfl | rfl | rfl | rfl <;>
    constructor <;> nlinarith [hcx1, hcx2, hcy1, hcy2, hr', hc']

/-- Helper: a tap on channel plane `c` (with `c < channels`) stays inside
the whole planar buffer of `channels * rows * cols` samples. -/
theorem plane_channel_bounds (im : Img) (x y c : ℕ) (δ a : ℤ)
    (hr : 3 ≤ im.rows) (hc : 3 ≤ im.cols) (hx : 1 ≤ x) (hy : 1 ≤ y)
    (hcc : c + 1 ≤ im.channels)
    (hδ : δ = 1 ∨ δ = -1 ∨ δ = (im.cols : ℤ) ∨ δ = -(im.cols : ℤ))
    (haeq : a = gradBase im x y + (c : ℤ) * ((im.cols : ℤ) * im.rows) + δ) :
    0 ≤ a ∧ a < (im.channels : ℤ) * ((im.rows : ℤ) * im.cols) := by
  obtain ⟨h0, h1⟩ := plane_read_bounds im x y δ hr hc hx hy hδ
  have hcc' : (c : ℤ) + 1 ≤ im.channels := by exact_mod_cast hcc
  have hA : (0 : ℤ) ≤ (im.rows : ℤ) * im.cols := by positivity
  have hmul : ((c : ℤ) + 1) * ((im.rows : ℤ) * im.cols) ≤
      (im.channels : ℤ) * ((im.rows : ℤ) * im.cols) :=
    mul_le_mul_of_nonneg_right hcc' hA
  have hplane : (c : ℤ) * ((im.cols : ℤ) * im.rows) = (c : ℤ) * ((im.rows : ℤ) * im.cols) := by
    ring
  have hcnn : (0 : ℤ) ≤ (c : ℤ) * ((im.rows : ℤ) * im.cols) := by positivity
  constructor
  · rw [haeq, hplane]; linarith
  · rw [haeq, hplane]; nlinarith

/-- C10 amended: provided the source image has at least 3 rows and 3 columns
(and at least one channel), every flat address read by the gradient pass at
any visited pixel — the four centered-difference taps on every channel
plane it touches — lies inside the image buffer `[0, channels*rows*cols)`.
(For smaller images the clamped base can make `s - 1` or `s - cols`
negative, as the counterexample shows.) -/
theorem grad_reads_in_bounds (im : Img) (b x y : ℕ) (a : ℤ)
    (hr : 3 ≤ im.rows) (hc : 3 ≤ im.cols) (hch : 1 ≤ im.channels)
    (hx1 : 1 ≤ x) (_hxu : x < visibleW im b - 1)
    (hy1 : 1 ≤ y) (_hyu : y < visibleH im b - 1)
    (ha : a ∈ gradReads im x y) :
    0 ≤ a ∧ a < (im.channels : ℤ) * ((im.rows : ℤ) * im.cols) := by
  have step : ∀ (c : ℕ) (δ : ℤ), c + 1 ≤ im.channels →
      (δ = 1 ∨ δ = -1 ∨ δ = (im.cols : ℤ) ∨ δ = -(im.cols : ℤ)) →
      a = gradBase im x y + (c : ℤ) * ((im.cols : ℤ) * im.rows) + δ →
      0 ≤ a ∧ a < (im.channels : ℤ) * ((im.rows : ℤ) * im.cols) :=
    fun c δ h1 h2 h3 => plane_channel_bounds im x y c δ a hr hc hx1 hy1 h1 h2 h3
  have d1 : (1 : ℤ) = 1 ∨ (1 : ℤ) = -1 ∨ (1 : ℤ) = (im.cols : ℤ) ∨ (1 : ℤ) = -(im.cols : ℤ) :=
    Or.inl rfl
  have d2 : (-1 : ℤ) = 1 ∨ (-1 : ℤ) = -1 ∨ (-1 : ℤ) = (im.cols : ℤ) ∨
      (-1 : ℤ) = -(im.cols : ℤ) := Or.inr (Or.inl rfl)
  have d3 : ((im.cols : ℤ)) = 1 ∨ ((im.cols : ℤ)) = -1 ∨ ((im.cols : ℤ)) = (im.cols : ℤ) ∨
      ((im.cols : ℤ)) = -(im.cols : ℤ) := Or.inr (Or.inr (Or.inl rfl))
  have d4 : (-(im.cols : ℤ)) = 1 ∨ (-(im.cols : ℤ)) = -1 ∨ (-(im.cols : ℤ)) = (im.cols : ℤ) ∨
      (-(im.cols : ℤ)) = -(im.cols : ℤ) := Or.inr (Or.inr (Or.inr rfl))
  unfold gradReads at ha
  by_cases h3 : im.channels = 3
  · rw [if_pos h3] at ha
    simp only [List.flatMap_cons, List.flatMap_nil, List.append_nil, List.mem_append,
      List.mem_cons, List.not_mem_nil, or_false] at ha
    rcases ha with ((ha | ha | ha | ha) | (ha | ha | ha | ha) | (ha | ha | ha | ha))
    · exact step 0 1 (by omega) d1 (by rw [ha]; push_cast; ring)
    · exact step 0 (-1) (by omega) d2 (by rw [ha]; push_cast; ring)
    · exact step 0 (im.cols : ℤ) (by omega) d3 (by rw [ha]; push_cast; ring)
    · exact step 0 (-(im.cols : ℤ)) (by omega) d4 (by rw [ha]; push_cast; ring)
    · exact step 1 1 (by omega) d1 (by rw [ha]; push_cast; ring)
    · exact step 1 (-1) (by omega) d2 (by rw [ha]; push_cast; ring)
    · exact step 1 (im.cols : ℤ) (by omega) d3 (by rw [ha]; push_cast; ring)
    · exact step 1 (-(im.cols : ℤ)) (by omega) d4 (by rw [ha]; push_cast; ring)
    · exact step 2 1 (by omega) d1 (by rw [ha]; push_cast; ring)
    · exact step 2 (-1) (by omega) d2 (by rw [ha]; push_cast; ring)
    · exact step 2 (im.cols : ℤ) (by omega) d3 (by rw [ha]; push_cast; ring)
    · exact step 2 (-(im.cols : ℤ)) (by omega) d4 (by rw [ha]; push_cast; ring)
  · rw [if_neg h3] at ha
    simp only [List.flatMap_cons, List.flatMap_nil, List.append_nil,
      List.mem_cons, List.not_mem_nil, or_false] at ha
    rcases ha with ha | ha | ha | ha
    · exact step 0 1 (by omega) d1 (by rw [ha]; push_cast; ring)
    · exact step 0 (-1) (by omega) d2 (by rw [ha]; push_cast; ring)
    · exact step 0 (im.cols : ℤ) (by omega) d3 (by rw [ha]; push_cast; ring)
    · exact step 0 (-(im.cols : ℤ)) (by omega) d4 (by rw [ha]; push_cast; ring)

/-- Witness for C10 amended: the right tap of pixel (1,1) of the 3×3 image
`img3` (address 5) is inside the buffer `[0, 9)`. -/
theorem grad_reads_in_bounds_witness :
    0 ≤ (5 : ℤ) ∧ (5 : ℤ) < (img3.channels : ℤ) * ((img3.rows : ℤ) * img3.cols) :=
  grad_reads_in_bounds img3 1 1 1 5 (by decide) (by decide) (by decide)
    (by decide) (by decide) (by decide) (by decide) (by decide)

/-! ## C4 and C6: concrete evaluation of the feature pipeline on `img3` -/

theorem sqrt_sixteen : Real.sqrt 16 = 4 := by
  rw [show (16 : ℝ) = 4 ^ 2 by norm_num, Real.sqrt_sq (by norm_num)]

theorem sqrt_ten_thousand : Real.sqrt 10000 = 100 := by
  rw [show (10000 : ℝ) = 100 ^ 2 by norm_num, Real.sqrt_sq (by norm_num)]

theorem img3_gradDx : gradDx img3 1 1 = 4 := by
  norm_num [gradDx, chanDx, chanV, chanDy, gradBase, img3]

theorem img3_gradDy : gradDy img3 1 1 = 0 := by
  norm_num [gradDy, chanDx, chanV, chanDy, gradBase, img3]

theorem img3_gradV : gradV img3 1 1 = 16 := by
  norm_num [gradV, chanDx, chanV, chanDy, gradBase, img3]

theorem snap_four_zero : snap 4 0 = 0 := by
  unfold snap
  rw [show List.range 9 = [0, 1, 2, 3, 4, 5, 6, 7, 8] by decide]
  norm_num [snapStep, uu, vv]

theorem img3_pixelList : pixelList (visibleH img3 1) (visibleW img3 1) = [(1, 1)] := by
  decide

theorem img3_hist (i : ℤ) :
    histPass img3 1 i =
      hwrite (hwrite (hwrite (hwrite (fun _ => 0) 72 4) 90 0) 126 0) 144 0 i := by
  rw [histPass, img3_pixelList]
  simp only [List.foldl_cons, List.foldl_nil, pixelUpdate, img3_gradV, img3_gradDx,
    img3_gradDy, snap_four_zero, sqrt_sixteen]
  norm_num [blocksW, blocksH, roundDiv, img3, hwrite]

theorem img3_energy0 : blockEnergy img3 1 0 = 0 := by
  norm_num [blockEnergy, Finset.sum_range_succ, img3_hist, hwrite]

theorem img3_energy1 : blockEnergy img3 1 1 = 0 := by
  norm_num [blockEnergy, Finset.sum_range_succ, img3_hist, hwrite]

theorem img3_energy2 : blockEnergy img3 1 2 = 0 := by
  norm_num [blockEnergy, Finset.sum_range_succ, img3_hist, hwrite]

theorem img3_energy3 : blockEnergy img3 1 3 = 0 := by
  norm_num [blockEnergy, Finset.sum_range_succ, img3_hist, hwrite]

theorem img3_energy4 : blockEnergy img3 1 4 = 16 := by
  norm_num [blockEnergy, Finset.sum_range_succ, img3_hist, hwrite]

theorem img3_outW : outW img3 1 = 1 := by
  norm_num [outW, blocksW, roundDiv, img3]

theorem img3_featN_base0 : featN img3 1 0 = 100 := by
  rw [featN, img3_outW]
  norm_num [img3_energy0, img3_energy1, img3_energy2, sqrt_ten_thousand]

theorem img3_featN_base1 : featN img3 1 1 = 100 := by
  rw [featN, img3_outW]
  norm_num [img3_energy1, img3_energy2, img3_energy3, sqrt_ten_thousand]

theorem img3_featN_base2 : featN img3 1 2 = 1 / Real.sqrt (16 + 1 / 10000) := by
  rw [featN, img3_outW]
  norm_num [img3_energy2, img3_energy3, img3_energy4]

theorem img3_specN_base0 : specFeatN img3 1 0 = 1 / Real.sqrt (16 + 1 / 10000) := by
  rw [specFeatN, show ((blocksW img3 1 : ℤ)) = 3 by norm_num [blocksW, roundDiv, img3]]
  norm_num [img3_energy0, img3_energy1, img3_energy3, img3_energy4]

theorem sqrt_16eps_ge_four : (4 : ℝ) ≤ Real.sqrt (16 + 1 / 10000) := by
  rw [Real.le_sqrt (by norm_num) (by norm_num)]
  norm_num

/-- C4: the claim says every normalization scalar is `1/sqrt(S + eps)` for a
2×2 neighborhood of the block-energy grid read with row stride
`blocks.width`. The code reads `norm` with row stride `outsize.width`
although `norm` was filled with stride `blocks.width`: on the 3×3 grayscale
image `img3` (binsize 1, block grid 3×3, single nonzero energy 16 at block
4) the code's `n4` for cell (0,0) is `1/sqrt(0 + eps) = 100`, while the
claim's stride-3 neighborhood `{0,1,3,4}` gives `1/sqrt(16 + eps) < 1`. -/
theorem normalization_wrong_stride :
    featN4 img3 1 0 0 = 100 ∧
    specFeatN4 img3 1 0 0 = 1 / Real.sqrt (16 + 1 / 10000) ∧
    featN4 img3 1 0 0 ≠ specFeatN4 img3 1 0 0 := by
  have h1 : featN4 img3 1 0 0 = 100 := by
    rw [featN4]
    norm_num [img3_featN_base0]
  have h2 : specFeatN4 img3 1 0 0 = 1 / Real.sqrt (16 + 1 / 10000) := by
    rw [specFeatN4]
    norm_num [img3_specN_base0]
  refine ⟨h1, h2, ?_⟩
  rw [h1, h2]
  have hpos : (0 : ℝ) < Real.sqrt (16 + 1 / 10000) :=
    lt_of_lt_of_le (by norm_num) sqrt_16eps_ge_four
  have hle : 1 / Real.sqrt (16 + 1 / 10000) ≤ 1 / 4 :=
    one_div_le_one_div_of_le (by norm_num) sqrt_16eps_ge_four
  intro heq
  rw [← heq] at hle
  linarith

theorem img3_cellHist0 : cellHist img3 1 0 0 0 = 4 := by
  rw [cellHist, show ((blocksW img3 1 : ℤ)) = 3 by norm_num [blocksW, roundDiv, img3]]
  norm_num [img3_hist, hwrite]

/-- C6 counterexample: the claim bounds every contrast-sensitive feature
value by 0.2, but the code emits `0.5 * (h1 + h2 + h3 + h4)` with each
`hK ≤ 0.2`: on the 3×3 grayscale image `img3` with binsize 1 all four
truncations saturate and the first feature value of cell (0,0) is 0.4. -/
theorem feature_value_above_claimed_bound :
    featVal img3 1 0 0 0 = 0.4 ∧ ¬ (featVal img3 1 0 0 0 ≤ 0.2) := by
  have hs20 : Real.sqrt (16 + 1 / 10000) ≤ 20 := by
    rw [Real.sqrt_le_left (by norm_num)]
    norm_num
  have hpos : (0 : ℝ) < Real.sqrt (16 + 1 / 10000) :=
    lt_of_lt_of_le (by norm_num) sqrt_16eps_ge_four
  have hc1 : clamp02 (cellHist img3 1 0 0 0 * featN1 img3 1 0 0) = 0.2 := by
    rw [img3_cellHist0, featN1, show (((0 : ℕ) : ℤ) + 1) * outW img3 1 + (((0 : ℕ) : ℤ) + 1) = 2 by
      rw [img3_outW]; norm_num, img3_featN_base2, clamp02]
    apply min_eq_right
    rw [mul_one_div, le_div_iff₀ hpos]
    nlinarith
  have hb1 : ((0 : ℕ) : ℤ) * outW img3 1 + (((0 : ℕ) : ℤ) + 1) = 1 := by
    rw [img3_outW]; norm_num
  have hb2 : (((0 : ℕ) : ℤ) + 1) * outW img3 1 + ((0 : ℕ) : ℤ) = 1 := by
    rw [img3_outW]; norm_num
  have hb3 : ((0 : ℕ) : ℤ) * outW img3 1 + ((0 : ℕ) : ℤ) = 0 := by
    rw [img3_outW]; norm_num
  have hc2 : clamp02 (cellHist img3 1 0 0 0 * featN2 img3 1 0 0) = 0.2 := by
    rw [img3_cellHist0, featN2, hb1, img3_featN_base1, clamp02]
    apply min_eq_right
    norm_num
  have hc3 : clamp02 (cellHist img3 1 0 0 0 * featN3 img3 1 0 0) = 0.2 := by
    rw [img3_cellHist0, featN3, hb2, img3_featN_base1, clamp02]
    apply min_eq_right
    norm_num
  have hc4 : clamp02 (cellHist img3 1 0 0 0 * featN4 img3 1 0 0) = 0.2 := by
    rw [img3_cellHist0, featN4, hb3, img3_featN_base0, clamp02]
    apply min_eq_right
    norm_num
  have hv : featVal img3 1 0 0 0 = 0.4 := by
    rw [featVal, if_pos (by norm_num : (0 : ℕ) < 18), featSens, hc1, hc2, hc3, hc4]
    norm_num
  exact ⟨hv, by rw [hv]; norm_num⟩

/-! ## C6 amended: boundedness of the emitted feature values -/

theorem hwrite_nonneg {g : ℤ → ℝ} {k : ℤ} {v : ℝ} (hg : ∀ j, 0 ≤ g j) (hv : 0 ≤ v) :
    ∀ j, 0 ≤ hwrite g k v j := by
  intro j
  unfold hwrite
  split
  · exact hv
  · exact hg j

theorem condWrite_nonneg {g : ℤ → ℝ} {c : Prop} [Decidable c] {k : ℤ} {v : ℝ}
    (hg : ∀ j, 0 ≤ g j) (hv : 0 ≤ v) :
    ∀ j, 0 ≤ (if c then hwrite g k v else g) j := by
  intro j
  split
  · exact hwrite_nonneg hg hv j
  · exact hg j

theorem sub_floor_nonneg (r : ℝ) : 0 ≤ r - (⌊r⌋ : ℝ) :=
  sub_nonneg.mpr (Int.floor_le r)

theorem one_sub_fract_nonneg (r : ℝ) : 0 ≤ 1 - (r - (⌊r⌋ : ℝ)) := by
  have := Int.lt_floor_add_one r
  linarith

theorem pixelUpdate_nonneg (im : Img) (b : ℕ) (g : ℤ → ℝ) (yx : ℕ × ℕ)
    (hg : ∀ j, 0 ≤ g j) : ∀ j, 0 ≤ pixelUpdate im b g yx j := by
  intro j
  simp only [pixelUpdate]
  exact condWrite_nonneg
    (condWrite_nonneg
      (condWrite_nonneg
        (condWrite_nonneg hg
          (mul_nonneg (mul_nonneg (one_sub_fract_nonneg _) (one_sub_fract_nonneg _))
            (Real.sqrt_nonneg _)))
        (mul_nonneg (mul_nonneg (one_sub_fract_nonneg _) (sub_floor_nonneg _))
          (Real.sqrt_nonneg _)))
      (mul_nonneg (mul_nonneg (one_sub_fract_nonneg _) (sub_floor_nonneg _))
        (Real.sqrt_nonneg _)))
    (mul_nonneg (mul_nonneg (sub_floor_nonneg _) (sub_floor_nonneg _))
      (Real.sqrt_nonneg _)) j

theorem foldl_pixel_nonneg (im : Img) (b : ℕ) (l : List (ℕ × ℕ)) (g : ℤ → ℝ)
    (hg : ∀ j, 0 ≤ g j) : ∀ j, 0 ≤ (l.foldl (pixelUpdate im b) g) j := by
  induction l generalizing g with
  | nil => exact hg
  | cons p t ih =>
    intro j
    exact ih (pixelUpdate im b g p) (pixelUpdate_nonneg im b g p hg) j

theorem histPass_nonneg (im : Img) (b : ℕ) (j : ℤ) : 0 ≤ histPass im b j :=
  foldl_pixel_nonneg im b _ _ (fun _ => le_refl 0) j

theorem featN_nonneg (im : Img) (b : ℕ) (base : ℤ) : 0 ≤ featN im b base :=
  one_div_nonneg.mpr (Real.sqrt_nonneg _)

theorem clamp02_mem {a : ℝ} (ha : 0 ≤ a) : 0 ≤ clamp02 a ∧ clamp02 a ≤ 0.2 :=
  ⟨le_min ha (by norm_num), min_le_right _ _⟩

/-- C6 amended: every contrast-sensitive and contrast-insensitive feature
value lies in `[0, 0.4]` (each of the four truncated summands lies in
`[0, 0.2]` and the emitted value is half their sum, so the tight bound is
0.4, attained by the counterexample — not 0.2 as claimed). -/
theorem feature_values_bounded (im : Img) (b y x k : ℕ) (hk : k < 27) :
    0 ≤ featVal im b y x k ∧ featVal im b y x k ≤ 0.4 := by
  have hn1 : 0 ≤ featN1 im b y x := featN_nonneg im b _
  have hn2 : 0 ≤ featN2 im b y x := featN_nonneg im b _
  have hn3 : 0 ≤ featN3 im b y x := featN_nonneg im b _
  have hn4 : 0 ≤ featN4 im b y x := featN_nonneg im b _
  have hch : ∀ o : ℕ, 0 ≤ cellHist im b y x o := fun o => histPass_nonneg im b _
  by_cases h18 : k < 18
  · obtain ⟨a1, b1⟩ := clamp02_mem (mul_nonneg (hch k) hn1)
    obtain ⟨a2, b2⟩ := clamp02_mem (mul_nonneg (hch k) hn2)
    obtain ⟨a3, b3⟩ := clamp02_mem (mul_nonneg (hch k) hn3)
    obtain ⟨a4, b4⟩ := clamp02_mem (mul_nonneg (hch k) hn4)
    rw [featVal, if_pos h18, featSens]
    constructor <;> linarith
  · have hs : 0 ≤ cellHist im b y x (k - 18) + cellHist im b y x (k - 18 + 9) :=
      add_nonneg (hch _) (hch _)
    obtain ⟨a1, b1⟩ := clamp02_mem (mul_nonneg hs hn1)
    obtain ⟨a2, b2⟩ := clamp02_mem (mul_nonneg hs hn2)
    obtain ⟨a3, b3⟩ := clamp02_mem (mul_nonneg hs hn3)
    obtain ⟨a4, b4⟩ := clamp02_mem (mul_nonneg hs hn4)
    rw [featVal, if_neg h18, if_pos hk]
    simp only [featInsens]
    constructor <;> linarith

/-- Witness for C6 amended at a concrete cell of the 3×3 test image. -/
theorem feature_values_bounded_witness :
    0 ≤ featVal img3 1 0 0 1 ∧ featVal img3 1 0 0 1 ≤ 0.4 :=
  feature_values_bounded img3 1 0 0 1 (by norm_num)

/-! ## C2: histogram writes assign instead of accumulating -/

/-- A 3×4 grayscale image: row 1 is `[0, 0, 1, 1]`, rows 0 and 2 are 0. -/
def imgC2 : Img := ⟨3, 4, 1, fun i => if i = 6 ∨ i = 7 then 1 else 0⟩

theorem snap_one_zero : snap 1 0 = 0 := by
  unfold snap
  rw [show List.range 9 = [0, 1, 2, 3, 4, 5, 6, 7, 8] by decide]
  norm_num [snapStep, uu, vv]

theorem floor_quarter : ⌊(0.25 : ℝ)⌋ = 0 := by
  norm_num [Int.floor_eq_iff]

theorem floor_three_quarter : ⌊(0.75 : ℝ)⌋ = 0 := by
  norm_num [Int.floor_eq_iff]

theorem imgC2_pixelList :
    pixelList (visibleH imgC2 2) (visibleW imgC2 2) = [(1, 1), (1, 2), (2, 1), (2, 2)] := by
  decide

theorem imgC2_pu11 (g : ℤ → ℝ) :
    pixelUpdate imgC2 2 g (1, 1) = (hwrite (hwrite (hwrite (hwrite g 0 0.5625) 18 0.1875) 36 0.1875) 54 0.0625) := by
  have hdx : gradDx imgC2 1 1 = 1 := by norm_num [gradDx, gradDy, gradV, chanDx, chanDy, chanV, gradBase, imgC2]
  have hdy : gradDy imgC2 1 1 = 0 := by norm_num [gradDx, gradDy, gradV, chanDx, chanDy, chanV, gradBase, imgC2]
  have hv : gradV imgC2 1 1 = 1 := by norm_num [gradDx, gradDy, gradV, chanDx, chanDy, chanV, gradBase, imgC2]
  funext i
  simp only [pixelUpdate, hdx, hdy, hv, snap_one_zero, Real.sqrt_one]
  norm_num [blocksW, blocksH, roundDiv, imgC2, hwrite, floor_quarter, floor_three_quarter]

theorem imgC2_pa11 (g : ℤ → ℝ) :
    specPixelAccum imgC2 2 g (1, 1) = (haccum (haccum (haccum (haccum g 0 0.5625) 18 0.1875) 36 0.1875) 54 0.0625) := by
  have hdx : gradDx imgC2 1 1 = 1 := by norm_num [gradDx, gradDy, gradV, chanDx, chanDy, chanV, gradBase, imgC2]
  have hdy : gradDy imgC2 1 1 = 0 := by norm_num [gradDx, gradDy, gradV, chanDx, chanDy, chanV, gradBase, imgC2]
  have hv : gradV imgC2 1 1 = 1 := by norm_num [gradDx, gradDy, gradV, chanDx, chanDy, chanV, gradBase, imgC2]
  funext i
  simp only [specPixelAccum, hdx, hdy, hv, snap_one_zero, Real.sqrt_one]
  norm_num [blocksW, blocksH, roundDiv, imgC2, haccum, floor_quarter, floor_three_quarter]

theorem imgC2_pu12 (g : ℤ → ℝ) :
    pixelUpdate imgC2 2 g (1, 2) = (hwrite (hwrite (hwrite (hwrite g 0 0.1875) 18 0.0625) 36 0.5625) 54 0.1875) := by
  have hdx : gradDx imgC2 2 1 = 1 := by norm_num [gradDx, gradDy, gradV, chanDx, chanDy, chanV, gradBase, imgC2]
  have hdy : gradDy imgC2 2 1 = 0 := by norm_num [gradDx, gradDy, gradV, chanDx, chanDy, chanV, gradBase, imgC2]
  have hv : gradV imgC2 2 1 = 1 := by norm_num [gradDx, gradDy, gradV, chanDx, chanDy, chanV, gradBase, imgC2]
  funext i
  simp only [pixelUpdate, hdx, hdy, hv, snap_one_zero, Real.sqrt_one]
  norm_num [blocksW, blocksH, roundDiv, imgC2, hwrite, floor_quarter, floor_three_quarter]

theorem imgC2_pa12 (g : ℤ → ℝ) :
    specPixelAccum imgC2 2 g (1, 2) = (haccum (haccum (haccum (haccum g 0 0.1875) 18 0.0625) 36 0.5625) 54 0.1875) := by
  have hdx : gradDx imgC2 2 1 = 1 := by norm_num [gradDx, gradDy, gradV, chanDx, chanDy, chanV, gradBase, imgC2]
  have hdy : gradDy imgC2 2 1 = 0 := by norm_num [gradDx, gradDy, gradV, chanDx, chanDy, chanV, gradBase, imgC2]
  have hv : gradV imgC2 2 1 = 1 := by norm_num [gradDx, gradDy, gradV, chanDx, chanDy, chanV, gradBase, imgC2]
  funext i
  simp only [specPixelAccum, hdx, hdy, hv, snap_one_zero, Real.sqrt_one]
  norm_num [blocksW, blocksH, roundDiv, imgC2, haccum, floor_quarter, floor_three_quarter]

theorem imgC2_pu21 (g : ℤ → ℝ) :
    pixelUpdate imgC2 2 g (2, 1) = (hwrite (hwrite (hwrite (hwrite g 0 0.1875) 18 0.5625) 36 0.0625) 54 0.1875) := by
  have hdx : gradDx imgC2 1 2 = 1 := by norm_num [gradDx, gradDy, gradV, chanDx, chanDy, chanV, gradBase, imgC2]
  have hdy : gradDy imgC2 1 2 = 0 := by norm_num [gradDx, gradDy, gradV, chanDx, chanDy, chanV, gradBase, imgC2]
  have hv : gradV imgC2 1 2 = 1 := by norm_num [gradDx, gradDy, gradV, chanDx, chanDy, chanV, gradBase, imgC2]
  funext i
  simp only [pixelUpdate, hdx, hdy, hv, snap_one_zero, Real.sqrt_one]
  norm_num [blocksW, blocksH, roundDiv, imgC2, hwrite, floor_quarter, floor_three_quarter]

theorem imgC2_pa21 (g : ℤ → ℝ) :
    specPixelAccum imgC2 2 g (2, 1) = (haccum (haccum (haccum (haccum g 0 0.1875) 18 0.5625) 36 0.0625) 54 0.1875) := by
  have hdx : gradDx imgC2 1 2 = 1 := by norm_num [gradDx, gradDy, gradV, chanDx, chanDy, chanV, gradBase, imgC2]
  have hdy : gradDy imgC2 1 2 = 0 := by norm_num [gradDx, gradDy, gradV, chanDx, chanDy, chanV, gradBase, imgC2]
  have hv : gradV imgC2 1 2 = 1 := by norm_num [gradDx, gradDy, gradV, chanDx, chanDy, chanV, gradBase, imgC2]
  funext i
  simp only [specPixelAccum, hdx, hdy, hv, snap_one_zero, Real.sqrt_one]
  norm_num [blocksW, blocksH, roundDiv, imgC2, haccum, floor_quarter, floor_three_quarter]

theorem imgC2_pu22 (g : ℤ → ℝ) :
    pixelUpdate imgC2 2 g (2, 2) = (hwrite (hwrite (hwrite (hwrite g 0 0.0625) 18 0.1875) 36 0.1875) 54 0.5625) := by
  have hdx : gradDx imgC2 2 2 = 1 := by norm_num [gradDx, gradDy, gradV, chanDx, chanDy, chanV, gradBase, imgC2]
  have hdy : gradDy imgC2 2 2 = 0 := by norm_num [gradDx, gradDy, gradV, chanDx, chanDy, chanV, gradBase, imgC2]
  have hv : gradV imgC2 2 2 = 1 := by norm_num [gradDx, gradDy, gradV, chanDx, chanDy, chanV, gradBase, imgC2]
  funext i
  simp only [pixelUpdate, hdx, hdy, hv, snap_one_zero, Real.sqrt_one]
  norm_num [blocksW, blocksH, roundDiv, imgC2, hwrite, floor_quarter, floor_three_quarter]

theorem imgC2_pa22 (g : ℤ → ℝ) :
    specPixelAccum imgC2 2 g (2, 2) = (haccum (haccum (haccum (haccum g 0 0.0625) 18 0.1875) 36 0.1875) 54 0.5625) := by
  have hdx : gradDx imgC2 2 2 = 1 := by norm_num [gradDx, gradDy, gradV, chanDx, chanDy, chanV, gradBase, imgC2]
  have hdy : gradDy imgC2 2 2 = 0 := by norm_num [gradDx, gradDy, gradV, chanDx, chanDy, chanV, gradBase, imgC2]
  have hv : gradV imgC2 2 2 = 1 := by norm_num [gradDx, gradDy, gradV, chanDx, chanDy, chanV, gradBase, imgC2]
  funext i
  simp only [specPixelAccum, hdx, hdy, hv, snap_one_zero, Real.sqrt_one]
  norm_num [blocksW, blocksH, roundDiv, imgC2, haccum, floor_quarter, floor_three_quarter]

/-- C2: the claim says each pixel's weighted magnitude is *added* so that
every histogram entry ends up the sum of the contributions mapping to it.
The writes use `=`, not `+=`: on the 3×4 image `imgC2` with binsize 2, four
pixels contribute `0.5625 + 0.1875 + 0.1875 + 0.0625 = 1` to cell (0,0) at
orientation bin 0, but the stored value is the last write, `0.0625`. -/
theorem histogram_writes_overwrite :
    histPass imgC2 2 0 = 0.0625 ∧ specHistAccum imgC2 2 0 = 1 ∧
    (0.0625 : ℝ) ≠ 1 := by
  refine ⟨?_, ?_, by norm_num⟩
  · rw [histPass, imgC2_pixelList]
    simp only [List.foldl_cons, List.foldl_nil]
    rw [imgC2_pu11, imgC2_pu12, imgC2_pu21, imgC2_pu22]
    norm_num [hwrite]
  · rw [specHistAccum, imgC2_pixelList]
    simp only [List.foldl_cons, List.foldl_nil]
    rw [imgC2_pa11, imgC2_pa12, imgC2_pa21, imgC2_pa22]
    norm_num [haccum]

end Hog
